import Mathlib

/-
  Verification development for the EmailParser repository
  (src/email_parser.py, single-file Python program).

  The embedding below is a shallow model of the program:
  * `pySplit` models Python `str.split(sep)` for a one-character separator,
    working on `List Char` (Python `len` counts characters, as does
    `List.length` here).
  * `calculate_malformation_probability` models
    `EmailParser.calculate_malformation_probability` (lines 240-265).
    The `tldextract` public-suffix collaborator is an external library,
    so the scorer is parameterized by a `suffixOf : String → String`
    function standing for `tldextract.extract(email).suffix`.
    Python float penalties 0.4/0.2/0.1 are modelled as exact rationals;
    on these particular values IEEE doubles add exactly
    (0.4+0.1 = 0.5, 0.5+0.1 = 0.6, 0.6+0.1 = 0.7 in Python), so the
    rational model is value-faithful for every reachable sum.
    `email.split('@')[1]` raises IndexError when the string has no '@';
    the model returns `none` in that case (`Option` models the raise).
  * A small backtracking matcher (`matchC`/`findAll`) models Python
    `re` semantics (leftmost position, first-alternative priority,
    greedy quantifiers with backtracking) for the e-mail regex.  The
    pattern AST `emailPat` mirrors the regex literal of lines 20 and 59
    character-class by character-class; line 20 compiles it with
    re.IGNORECASE (modelled by the `ci : Bool` flag), line 59 without.
  * `flm`/`matchTotal`/`ratioVal` model difflib.SequenceMatcher
    (isjunk=None): b2j index, the find_longest_match dynamic program,
    the non-junk extension loops, the recursive matching-block
    decomposition, and ratio = 2*M/(len(a)+len(b)).  With isjunk=None
    the bjunk set is empty, so the two junk-extension loops of
    find_longest_match can never fire and are omitted; the autojunk
    "popular" purge (only active when len(b) >= 200) is modelled in
    `b2j`.
  * `ParserState`/`Env` and the functions below them model the
    `EmailParser` class state and methods.  Python sets
    (`unique_emails`, `excluded_emails`) are used only for membership
    tests and guarded inserts, so they are modelled as duplicate-free
    lists; the output CSV sink is modelled as the `output` list of
    report rows; an output-sink open failure (`open(...,'a')` at line 83)
    is modelled by `Env.sinkFails` applied to the index of the open
    attempt (`flushes` counts opens, a pure modelling device).
    `Except (RunError × ParserState)` models a Python exception
    carrying the mutated state at the point of the raise.
-/

/-- Models Python str.split(sep) for a single-character separator. -/
def pySplit (sep : Char) : List Char → List (List Char)
  | [] => [[]]
  | c :: rest =>
    match pySplit sep rest with
    | [] => [[]]
    | part :: parts => if c = sep then [] :: part :: parts else (c :: part) :: parts

/-- Models Python str.lower() (ASCII case folding, which is all the
program's candidate strings can contain). -/
def pyLower (s : String) : String := String.mk (s.data.map Char.toLower)

/-- Models Python min(a, b) on two numbers: the first argument unless
the second is strictly smaller. -/
def pyMin (a b : ℚ) : ℚ := if a ≤ b then a else b

/-- Models re.search(r'[._%+-]\x7b2,\x7d', local_part) at line 261: true iff the
string contains two consecutive characters from the set . _ % + - . -/
def isSpecialChar (c : Char) : Bool := c ∈ ['.', '_', '%', '+', '-']

def has_consecutive_special (s : List Char) : Bool :=
  (s.zip s.tail).any (fun p => isSpecialChar p.1 && isSpecialChar p.2)

/-- The additive penalty sum of
EmailParser.calculate_malformation_probability (lines 240-263), before
the min(..., 1.0) cap.  Meaningful only when the email contains an '@'
(the caller checks this before using the value). -/
def malformation_raw (suffixOf : String → String) (email : String) : ℚ :=
  let sfx := suffixOf email
  let p1 : ℚ := if sfx = "" then 4/10 else if 6 < sfx.length then 2/10 else 0
  let domain_parts := pySplit ('.') ((pySplit ('@') email.data).getD 1 [])
  let p2 : ℚ := if 4 < domain_parts.length then 1/10 else 0
  let local_part := (pySplit ('@') email.data).headD []
  let p3 : ℚ := if 64 < local_part.length then 1/10 else 0
  let p4 : ℚ := if has_consecutive_special local_part then 1/10 else 0
  p1 + p2 + p3 + p4

/-- Models EmailParser.calculate_malformation_probability (lines 240-265).
`email.split('@')[1]` raises IndexError when the split has fewer than two
parts, i.e. when the string contains no '@'; that raise is modelled as
`none`. -/
def calculate_malformation_probability (suffixOf : String → String) (email : String) :
    Option ℚ :=
  match pySplit ('@') email.data with
  | [] => none
  | [_] => none
  | _ :: _ :: _ => some (pyMin (malformation_raw suffixOf email) 1)

/-- Modelled from the spec: the domain-suffix recognizer (`tldextract`,
an external collaborator holding "an authoritative/maintained
public-suffix dataset") is not part of this repository.  It is modelled
as: the suffix of the domain written after the last '@' is its final
dot-separated label when that label is in the dataset snapshot, and
empty otherwise.  The snapshot below contains every suffix the concrete
addresses of this development need; note that neither "tld" nor "e" is
a public suffix. -/
def pslSnapshot : List String := ["com", "org", "net", "edu", "gov", "uk", "co"]

def suffix_model (email : String) : String :=
  let domain := (pySplit ('@') email.data).getLastD []
  let lastLabel := (pySplit ('.') domain).getLastD []
  if String.mk lastLabel ∈ pslSnapshot then String.mk lastLabel else ("")

/-
  The e-mail regex of src/email_parser.py lines 20 and 59 (identical
  text; line 20 additionally passes re.IGNORECASE):

  (?:[a-z0-9!#$%&'*+/=?^_`\x7b|\x7d~-]+(?:\.[a-z0-9!#$%&'*+/=?^_`\x7b|\x7d~-]+)*
    |"(?:[\x01-\x08\x0b\x0c\x0e-\x1f\x21\x23-\x5b\x5d-\x7f]|\\[\x01-\x09\x0b\x0c\x0e-\x7f])*")
  @
  (?:(?:[a-z0-9](?:[a-z0-9-]*[a-z0-9])?\.)+[a-z0-9](?:[a-z0-9-]*[a-z0-9])?
    |\[(?:(?:25[0-5]|2[0-4][0-9]|[01]?[0-9][0-9]?)\.)\x7b3\x7d
       (?:25[0-5]|2[0-4][0-9]|[01]?[0-9][0-9]?
         |[a-z0-9-]*[a-z0-9]:(?:[\x01-\x08\x0b\x0c\x0e-\x1f\x21-\x5a\x53-\x7f]|\\[\x01-\x09\x0b\x0c\x0e-\x7f])+)\])

  Character classes are written below as lists of codepoint items so the
  AST mirrors the regex text item by item.
-/

/-- One item of a regex character class: a single codepoint or an
inclusive codepoint range. -/
inductive CItem where
  | single (n : Nat)
  | range (lo hi : Nat)
deriving DecidableEq, Repr

/-- Regex AST: empty, character class, concatenation, alternation
(left = first alternative, Python's preference order), greedy star and
greedy option. -/
inductive Pat where
  | epsP
  | cls (items : List CItem)
  | seqP (p q : Pat)
  | altP (p q : Pat)
  | starP (p : Pat)
  | optP (p : Pat)
deriving DecidableEq, Repr

def inItem (it : CItem) (n : Nat) : Bool :=
  match it with
  | CItem.single m => n = m
  | CItem.range lo hi => decide (lo ≤ n) && decide (n ≤ hi)

/-- ASCII case swap on codepoints, for re.IGNORECASE (all the classes of
this pattern are ASCII). -/
def swapCaseNat (n : Nat) : Nat :=
  if 65 ≤ n ∧ n ≤ 90 then n + 32 else if 97 ≤ n ∧ n ≤ 122 then n - 32 else n

/-- Character-class membership; with `ci` (re.IGNORECASE) a character
also matches when its case-swapped form is in the class. -/
def inCls (ci : Bool) (items : List CItem) (c : Char) : Bool :=
  items.any (fun it => inItem it c.toNat) ||
    (ci && items.any (fun it => inItem it (swapCaseNat c.toNat)))

def orElseO (a : Option (List Char)) (b : Unit → Option (List Char)) : Option (List Char) :=
  match a with
  | some x => some x
  | none => b ()

/-- Backtracking matcher in continuation-passing style: Python re
semantics at a fixed start position (first-alternative priority,
greedy quantifiers, full backtracking).  `k` receives the rest of the
input after the part consumed by `pat`; the result is the value of the
first successful continuation, i.e. the overall match Python commits
to.  `fuel` only bounds recursion depth; each star iteration must
consume input (every quantified group of the e-mail pattern consumes at
least one character, so the guard is never hit on a real match). -/
def matchC (ci : Bool) : Nat → Pat → List Char → (List Char → Option (List Char)) → Option (List Char)
  | 0, _, _, _ => none
  | _ + 1, Pat.epsP, s, k => k s
  | _ + 1, Pat.cls items, s, k =>
    match s with
    | [] => none
    | c :: rest => if inCls ci items c then k rest else none
  | fuel + 1, Pat.seqP p q, s, k => matchC ci fuel p s (fun s2 => matchC ci fuel q s2 k)
  | fuel + 1, Pat.altP p q, s, k =>
    orElseO (matchC ci fuel p s k) (fun _ => matchC ci fuel q s k)
  | fuel + 1, Pat.optP p, s, k => orElseO (matchC ci fuel p s k) (fun _ => k s)
  | fuel + 1, Pat.starP p, s, k =>
    orElseO
      (matchC ci fuel p s
        (fun s2 => if s2.length < s.length then matchC ci fuel (Pat.starP p) s2 k else none))
      (fun _ => k s)

/-- Class [a-z0-9!#$%&'*+/=?^_`\x7b|\x7d~-] (the dot-atom class), item per item. -/
def atomItems : List CItem :=
  [CItem.range 97 122, CItem.range 48 57, CItem.single 33, CItem.single 35,
   CItem.single 36, CItem.single 37, CItem.single 38, CItem.single 39,
   CItem.single 42, CItem.single 43, CItem.single 47, CItem.single 61,
   CItem.single 63, CItem.single 94, CItem.single 95, CItem.single 96,
   CItem.single 123, CItem.single 124, CItem.single 125, CItem.single 126,
   CItem.single 45]

/-- Class [\x01-\x08\x0b\x0c\x0e-\x1f\x21\x23-\x5b\x5d-\x7f] (quoted-string body). -/
def qsafeItems : List CItem :=
  [CItem.range 1 8, CItem.single 11, CItem.single 12, CItem.range 14 31,
   CItem.single 33, CItem.range 35 91, CItem.range 93 127]

/-- Class [\x01-\x09\x0b\x0c\x0e-\x7f] (escaped character after a backslash). -/
def qescItems : List CItem :=
  [CItem.range 1 9, CItem.single 11, CItem.single 12, CItem.range 14 127]

/-- Class [\x01-\x08\x0b\x0c\x0e-\x1f\x21-\x5a\x53-\x7f] (domain-literal tail;
the two overlapping ranges are exactly as written in the source). -/
def dsafeItems : List CItem :=
  [CItem.range 1 8, CItem.single 11, CItem.single 12, CItem.range 14 31,
   CItem.range 33 90, CItem.range 83 127]

def litP (n : Nat) : Pat := Pat.cls [CItem.single n]
def plusP (p : Pat) : Pat := Pat.seqP p (Pat.starP p)
def rep3 (p : Pat) : Pat := Pat.seqP p (Pat.seqP p p)

/-- Pattern [a-z0-9!...]+(?:\.[a-z0-9!...]+)*  (unquoted dot-atom local part). -/
def localDotAtom : Pat :=
  Pat.seqP (plusP (Pat.cls atomItems))
    (Pat.starP (Pat.seqP (litP 46) (plusP (Pat.cls atomItems))))

/-- Pattern "(?:qsafe|\\qesc)*"  (quoted-string local part; 34 = '"', 92 = backslash). -/
def quotedLocal : Pat :=
  Pat.seqP (litP 34)
    (Pat.seqP (Pat.starP (Pat.altP (Pat.cls qsafeItems) (Pat.seqP (litP 92) (Pat.cls qescItems))))
      (litP 34))

/-- Pattern [a-z0-9](?:[a-z0-9-]*[a-z0-9])?  (one domain label). -/
def labelPat : Pat :=
  Pat.seqP (Pat.cls [CItem.range 97 122, CItem.range 48 57])
    (Pat.optP (Pat.seqP (Pat.starP (Pat.cls [CItem.range 97 122, CItem.range 48 57, CItem.single 45]))
      (Pat.cls [CItem.range 97 122, CItem.range 48 57])))

/-- Pattern (?:label\.)+label  (dotted domain). -/
def dottedDomain : Pat :=
  Pat.seqP (plusP (Pat.seqP labelPat (litP 46))) labelPat

/-- Pattern 25[0-5]|2[0-4][0-9]|[01]?[0-9][0-9]?  (50 = '2', 53 = '5'). -/
def octetPat : Pat :=
  Pat.altP (Pat.seqP (litP 50) (Pat.seqP (litP 53) (Pat.cls [CItem.range 48 53])))
    (Pat.altP (Pat.seqP (litP 50) (Pat.seqP (Pat.cls [CItem.range 48 52]) (Pat.cls [CItem.range 48 57])))
      (Pat.seqP (Pat.optP (Pat.cls [CItem.range 48 49]))
        (Pat.seqP (Pat.cls [CItem.range 48 57]) (Pat.optP (Pat.cls [CItem.range 48 57])))))

/-- Pattern [a-z0-9-]*[a-z0-9]:(?:dsafe|\\qesc)+  (general address-literal tail, 58 = ':'). -/
def hostTail : Pat :=
  Pat.seqP (Pat.starP (Pat.cls [CItem.range 97 122, CItem.range 48 57, CItem.single 45]))
    (Pat.seqP (Pat.cls [CItem.range 97 122, CItem.range 48 57])
      (Pat.seqP (litP 58)
        (plusP (Pat.altP (Pat.cls dsafeItems) (Pat.seqP (litP 92) (Pat.cls qescItems))))))

/-- Pattern \[(?:octet\.)\x7b3\x7d(?:octet|hostTail)\]  (91 = '[', 93 = ']'). -/
def bracketDomain : Pat :=
  Pat.seqP (litP 91)
    (Pat.seqP (rep3 (Pat.seqP octetPat (litP 46)))
      (Pat.seqP (Pat.altP octetPat hostTail) (litP 93)))

/-- The whole e-mail pattern of lines 20 and 59 (64 = '@'). -/
def emailPat : Pat :=
  Pat.seqP (Pat.altP localDotAtom quotedLocal)
    (Pat.seqP (litP 64) (Pat.altP dottedDomain bracketDomain))

/-- Try the pattern at the start of `s` (Python match attempt at one
scan position); returns the remaining input after the committed match. -/
def matchTail (ci : Bool) (s : List Char) : Option (List Char) :=
  matchC ci (100 * (s.length + 10)) emailPat s (fun s2 => some s2)

/-- Scan loop of Pattern.findall: try each start position left to
right; on a match, emit the matched substring and resume right after it
(non-overlapping); otherwise advance one character. -/
def scanAll (ci : Bool) : Nat → List Char → List String
  | 0, _ => []
  | _ + 1, [] => []
  | fuel + 1, c :: rest =>
    match matchTail ci (c :: rest) with
    | some s2 =>
      if s2.length < (c :: rest).length then
        String.mk ((c :: rest).take ((c :: rest).length - s2.length)) :: scanAll ci fuel s2
      else scanAll ci fuel rest
    | none => scanAll ci fuel rest

/-- Models email_pattern.findall(text): line 59's pattern with
`ci = false`, line 20's (re.IGNORECASE) with `ci = true`.  The pattern
has no capturing groups, so findall returns full-match strings. -/
def findAll (ci : Bool) (text : String) : List String :=
  scanAll ci (text.data.length + 1) text.data

/-
  difflib.SequenceMatcher(None, a, b) as used by
  EmailParser.calculate_similarity (lines 237-238).
-/

/-- The b2j index before junk/popular purging: all indices j with b[j] = c, in
ascending order (Python builds them by a left-to-right enumerate). -/
def b2jList (b : List Char) (c : Char) : List Nat :=
  (List.range b.length).filter (fun j => b.getD j (Char.ofNat 0) = c)

/-- The autojunk rule of SequenceMatcher.__chain_b: with isjunk=None the
bjunk set is empty, and when len(b) >= 200 elements occurring more than
len(b)//100 + 1 times are dropped from b2j ("popular" elements). -/
def isPopular (b : List Char) (c : Char) : Bool :=
  decide (200 ≤ b.length) && decide (b.length / 100 + 1 < (b2jList b c).length)

def b2j (b : List Char) (c : Char) : List Nat :=
  if isPopular b c then [] else b2jList b c

/-- The dynamic program of SequenceMatcher.find_longest_match: for each
i in [alo, ahi) and each j in b2j[a[i]] with blo <= j < bhi (ascending,
so the Python continue/break filters reduce to a range filter), set
k = j2len_prev[j-1] + 1 and record (i-k+1, j-k+1, k) whenever k exceeds
the best size so far.  State: (current row as a function, besti, bestj,
bestsize); rows only ever read the previous row. -/
def flmBase (a b : List Char) (alo ahi blo bhi : Nat) : Nat × Nat × Nat :=
  ((List.range' alo (ahi - alo)).foldl
    (fun (acc : (Nat → Nat) × Nat × Nat × Nat) i =>
      let prev := acc.1
      let js := (b2j b (a.getD i (Char.ofNat 0))).filter
        (fun j => decide (blo ≤ j) && decide (j < bhi))
      js.foldl
        (fun (acc2 : (Nat → Nat) × Nat × Nat × Nat) j =>
          let k := (if j = 0 then 0 else prev (j - 1)) + 1
          let row2 : Nat → Nat := fun x => if x = j then k else acc2.1 x
          if acc2.2.2.2 < k then (row2, i + 1 - k, j + 1 - k, k) else (row2, acc2.2))
        ((fun _ => 0 : Nat → Nat), acc.2))
    ((fun _ => 0 : Nat → Nat), alo, blo, 0)).2

/-- First non-junk extension loop of find_longest_match (bjunk is empty
with isjunk=None, so `not isbjunk(...)` is always true). -/
def extendLeft (a b : List Char) (alo blo : Nat) : Nat → Nat × Nat × Nat → Nat × Nat × Nat
  | 0, st => st
  | fuel + 1, (bi, bj, bs) =>
    if decide (alo < bi) && decide (blo < bj) &&
        decide (a.getD (bi - 1) (Char.ofNat 0) = b.getD (bj - 1) (Char.ofNat 1)) then
      extendLeft a b alo blo fuel (bi - 1, bj - 1, bs + 1)
    else (bi, bj, bs)

/-- Second non-junk extension loop of find_longest_match. -/
def extendRight (a b : List Char) (ahi bhi : Nat) : Nat → Nat × Nat × Nat → Nat × Nat × Nat
  | 0, st => st
  | fuel + 1, (bi, bj, bs) =>
    if decide (bi + bs < ahi) && decide (bj + bs < bhi) &&
        decide (a.getD (bi + bs) (Char.ofNat 0) = b.getD (bj + bs) (Char.ofNat 1)) then
      extendRight a b ahi bhi fuel (bi, bj, bs + 1)
    else (bi, bj, bs)

/-- find_longest_match(alo, ahi, blo, bhi): the DP best, then the two
non-junk extension loops; the two junk-extension loops never fire
because bjunk is empty with isjunk=None. -/
def flm (a b : List Char) (alo ahi blo bhi : Nat) : Nat × Nat × Nat :=
  extendRight a b ahi bhi (a.length + b.length)
    (extendLeft a b alo blo (a.length + b.length) (flmBase a b alo ahi blo bhi))

/-- Total size of all matching blocks (get_matching_blocks): recursive
greedy decomposition around the longest match of each region.  The
Python queue visits the same regions; sorting and merging adjacent
blocks preserve the total size, which is all ratio() consumes.  Each
recursion strictly shrinks (ahi-alo)+(bhi-blo), so the fuel
(len(a)+len(b)+1 at top level) is never exhausted. -/
def matchTotal (a b : List Char) : Nat → Nat → Nat → Nat → Nat → Nat
  | 0, _, _, _, _ => 0
  | fuel + 1, alo, ahi, blo, bhi =>
    let m := flm a b alo ahi blo bhi
    if m.2.2 = 0 then 0
    else
      matchTotal a b fuel alo m.1 blo m.2.1 + m.2.2 +
        matchTotal a b fuel (m.1 + m.2.2) ahi (m.2.1 + m.2.2) bhi

/-- SequenceMatcher.ratio() = 2*M / (len(a)+len(b)).  Every use in the
program compares two regex candidates, which are nonempty, so the
denominator is never zero (Python would raise ZeroDivisionError there). -/
def ratioVal (a b : List Char) : ℚ :=
  2 * (matchTotal a b (a.length + b.length + 1) 0 a.length 0 b.length : ℚ) /
    ((a.length : ℚ) + (b.length : ℚ))

/-- Models EmailParser.calculate_similarity (lines 237-238):
SequenceMatcher(None, email1.lower(), email2.lower()).ratio() * 100. -/
def calculate_similarity (email1 email2 : String) : ℚ :=
  ratioVal (pyLower email1).data (pyLower email2).data * 100

/-
  The DeduplicatingCollector: the mutable state of the EmailParser
  instance and the methods that drive a run.
-/

/-- One line written by csv.writer in process_batch (lines 92-98).
`similar`/`percentage` are the two conditionally-empty columns: Python
writes "" (resp. a formatted number) depending on
similarity >= threshold; the formatted number is modelled by its exact
rational value in `percentage`. -/
structure ReportRow where
  email : String
  malformation : ℚ
  similar : String
  percentage : Option ℚ
  source : String
deriving DecidableEq, Repr

/-- The mutable fields of EmailParser.__init__ (lines 54-66).
`output` is the content of the output CSV (data rows, header aside);
`flushes` counts output-sink open attempts — a pure modelling device
used to address individual opens from `Env.sinkFails`. -/
structure ParserState where
  unique_emails : List String
  current_batch : List String
  all_emails : List String
  processed_count : Nat
  excluded_emails : List String
  similarity_threshold : ℚ
  batch_size : Nat
  output : List ReportRow
  flushes : Nat
deriving DecidableEq, Repr

/-- The external collaborators of one run: the tldextract suffix
function, and whether the n-th attempt to open the output sink for
appending raises an OSError. -/
structure Env where
  suffixOf : String → String
  sinkFails : Nat → Bool

/-- Python exceptions that the modelled code can raise. -/
inductive RunError where
  | ioError
  | indexError
deriving DecidableEq, Repr

/-- Loop body of find_similar_email (lines 109-122): skip pool members
equal (as strings) to the candidate; record a member iff its similarity
strictly exceeds the best so far and meets the threshold. -/
def fseStep (th : ℚ) (email : String) (best : String × ℚ) (e : String) : String × ℚ :=
  if e ≠ email then
    if calculate_similarity email e > best.2 ∧ calculate_similarity email e ≥ th then
      (e, calculate_similarity email e)
    else best
  else best

/-- EmailParser.find_similar_email (lines 104-124): scan all_emails in
order, then current_batch in order, starting from ("", 0). -/
def find_similar_email (th : ℚ) (all_emails current_batch : List String) (email : String) :
    String × ℚ :=
  current_batch.foldl (fseStep th email) (all_emails.foldl (fseStep th email) ("", 0))

/-- The members find_similar_email can ever consider: both pools in scan
order, minus the members string-equal to the candidate. -/
def similarity_pool (all_emails current_batch : List String) (email : String) : List String :=
  (all_emails ++ current_batch).filter (fun e => e != email)

/-- Loop body of process_batch (lines 85-101) for one queued email:
excluded emails only bump processed_count; otherwise score, match
against all_emails ++ current_batch (current_batch is left untouched
during the loop, so the pool is the full batch), write the row, append
to all_emails, bump processed_count.  An IndexError from the scorer
(impossible for grammar candidates, which contain '@') propagates. -/
def processBatchEmail (env : Env) (src : String) (st : ParserState) (email : String) :
    Except (RunError × ParserState) ParserState :=
  if pyLower email ∈ st.excluded_emails then
    Except.ok { st with processed_count := st.processed_count + 1 }
  else
    let simBest := find_similar_email st.similarity_threshold st.all_emails st.current_batch email
    match calculate_malformation_probability env.suffixOf email with
    | none => Except.error (RunError.indexError, st)
    | some prob =>
      let row : ReportRow :=
        { email := email
          malformation := prob
          similar := if simBest.2 ≥ st.similarity_threshold then simBest.1 else ("")
          percentage := if simBest.2 ≥ st.similarity_threshold then some simBest.2 else none
          source := src }
      Except.ok { st with
        output := st.output ++ [row]
        all_emails := st.all_emails ++ [email]
        processed_count := st.processed_count + 1 }

def batchLoop (env : Env) (src : String) : ParserState → List String →
    Except (RunError × ParserState) ParserState
  | st, [] => Except.ok st
  | st, e :: rest =>
    match processBatchEmail env src st e with
    | Except.error err => Except.error err
    | Except.ok st2 => batchLoop env src st2 rest

/-- EmailParser.process_batch (lines 79-102): no-op on an empty batch;
otherwise open the output sink (the open attempt may raise, modelled by
sinkFails at the current open index), process every batch member with
the batch list itself unchanged, and only then clear current_batch
(line 102 — unreached when an exception escapes the loop, so the batch
survives a failed flush). -/
def process_batch (env : Env) (src : String) (st : ParserState) :
    Except (RunError × ParserState) ParserState :=
  if st.current_batch = [] then Except.ok st
  else
    let st0 := { st with flushes := st.flushes + 1 }
    if env.sinkFails st.flushes then Except.error (RunError.ioError, st0)
    else
      match batchLoop env src st0 st0.current_batch with
      | Except.error err => Except.error err
      | Except.ok st2 => Except.ok { st2 with current_batch := [] }

/-- Loop body of parse_csv_file for one found candidate (lines 195-203):
count it, and if its case-folded form is new, record it in
unique_emails, queue it, and flush when the batch reaches batch_size.
The exclude list is NOT consulted here. -/
def handle_candidate (env : Env) (fname : String) (st : ParserState) (email : String) :
    Except (RunError × ParserState) ParserState :=
  let st1 := { st with processed_count := st.processed_count + 1 }
  if pyLower email ∈ st1.unique_emails then Except.ok st1
  else
    let st2 := { st1 with
      unique_emails := st1.unique_emails ++ [pyLower email]
      current_batch := st1.current_batch ++ [email] }
    if st2.batch_size ≤ st2.current_batch.length then process_batch env fname st2
    else Except.ok st2

def candLoop (env : Env) (fname : String) : ParserState → List String →
    Except (RunError × ParserState) ParserState
  | st, [] => Except.ok st
  | st, e :: rest =>
    match handle_candidate env fname st e with
    | Except.error err => Except.error err
    | Except.ok st2 => candLoop env fname st2 rest

def fieldLoop (env : Env) (fname : String) : ParserState → List String →
    Except (RunError × ParserState) ParserState
  | st, [] => Except.ok st
  | st, field :: rest =>
    match candLoop env fname st (findAll false field) with
    | Except.error err => Except.error err
    | Except.ok st2 => fieldLoop env fname st2 rest

/-- The body of the try-block of parse_csv_file (lines 190-203): a CSV
file is modelled as its already-parsed rows of string fields (csv.reader
is container plumbing).  Any exception escaping a mid-file flush
propagates out of this function carrying the state mutated so far. -/
def parse_csv_inner (env : Env) (fname : String) :
    ParserState → List (List String) → Except (RunError × ParserState) ParserState
  | st, [] => Except.ok st
  | st, row :: rest =>
    match fieldLoop env fname st row with
    | Except.error err => Except.error err
    | Except.ok st2 => parse_csv_inner env fname st2 rest

/-- EmailParser.parse_csv_file (lines 188-205): the blanket
`except Exception` catches anything the inner loop raises, logs it, and
lets the run continue from the state at the point of failure.  (The
extra try/except of parse_file, lines 177-186, adds nothing on top.) -/
def parse_csv_file (env : Env) (fname : String) (file : List (List String))
    (st : ParserState) : ParserState :=
  match parse_csv_inner env fname st file with
  | Except.ok st2 => st2
  | Except.error err => err.2

/-- The per-file unit of process_path (lines 134-138 for a single file;
the directory branch repeats the same shape per file at lines 160-170):
parse the file — which catches its own errors — then flush the
remaining batch.  This trailing process_batch call is NOT inside any
try/except, so an exception it raises propagates and aborts the run. -/
def process_file_unit (env : Env) (fname : String) (file : List (List String))
    (st : ParserState) : Except (RunError × ParserState) ParserState :=
  let st1 := parse_csv_file env fname file st
  if st1.current_batch = [] then Except.ok st1
  else process_batch env fname st1

/-- EmailParser.__init__ plus load_excluded_emails (lines 54-77): the
exclude CSV contributes the lower-cased first field of each non-empty
row; batch_size is fixed at 20. -/
def initState (threshold : ℚ) (excludeRows : List (List String)) : ParserState :=
  { unique_emails := []
    current_batch := []
    all_emails := []
    processed_count := 0
    excluded_emails := excludeRows.foldl
      (fun acc row => match row with | [] => acc | x :: _ => acc ++ [pyLower x]) []
    similarity_threshold := threshold
    batch_size := 20
    output := []
    flushes := 0 }

/-- Models the `emails` set of EmailHTMLParser (line 19): a Python set
collects the matches, so a duplicate-free collection ordered by first
insertion over-approximates it (Python additionally loses order). -/
def setInsert (l : List String) (x : String) : List String :=
  if x ∈ l then l else l ++ [x]

def setUpdate (l : List String) (xs : List String) : List String := xs.foldl setInsert l

/-- Models EmailHTMLParser.handle_data outside a pre block (lines 50-51):
self.emails.update(self.email_pattern.findall(data)) with the
IGNORECASE pattern of line 20. -/
def handle_data_emails (emails : List String) (data : String) : List String :=
  setUpdate emails (findAll true data)

def exIsOk : Except (RunError × ParserState) ParserState → Bool
  | Except.ok _ => true
  | Except.error _ => false

def exState : Except (RunError × ParserState) ParserState → ParserState
  | Except.ok st => st
  | Except.error err => err.2

/-
  Concrete runs used by the counterexamples and witnesses below.
-/

/-- A run whose output sink never fails. -/
def env0 : Env := { suffixOf := suffix_model, sinkFails := fun _ => false }

/-- A run whose first output-sink open attempt fails (transient failure:
e.g. the file is momentarily locked), later attempts succeed. -/
def envT : Env := { suffixOf := suffix_model, sinkFails := fun n => n == 0 }

/-- A run whose output-sink open attempts always fail. -/
def envF : Env := { suffixOf := suffix_model, sinkFails := fun _ => true }

/-- Quoted-string local part of 66 characters containing "..", giving a
grammar-accepted candidate with local part longer than 64, consecutive
special characters, five domain labels and no recognizable TLD. -/
def c1_local : String := "\"" ++ String.mk (List.replicate 62 'a') ++ "..\""

def c1_addr : String := c1_local ++ "@a.b.c.d.e"

/-- End-to-end single-file run of claim C3: exclude list containing
spam@bad.tld, input CSV containing exactly one occurrence of it. -/
def c3_file : List (List String) := [["spam@bad.tld"]]

def c3_result : ParserState :=
  exState (process_file_unit env0 ("input.csv") c3_file (initState 90 [["spam@bad.tld"]]))

/-- A flush of a two-member batch with empty history: used to show the
first flushed member is matched against the member queued after it. -/
def c5_state : ParserState :=
  { initState 90 [] with current_batch := ["john@example.com", "jon@example.com"] }

def c5_st2 : ParserState := exState (process_batch env0 ("batch.csv") c5_state)

/-- A state whose history holds john@example.com and whose threshold sits
exactly at the similarity of jon@example.com to it (3000/31 ≈ 96.77). -/
def c6_state : ParserState :=
  { initState (3000/31) [] with all_emails := ["john@example.com"] }

def c6_st2 : ParserState :=
  exState (processBatchEmail env0 ("f.csv") c6_state ("jon@example.com"))

/-- Twenty distinct candidates, all excluded, in one CSV row: enough to
trigger the mid-file batch-size flush on a batch of exactly 20. -/
def mails20 : List String := (List.range 20).map (fun i => "m" ++ toString i ++ "@a.bc")

def file20 : List (List String) := [mails20]

def init20 : ParserState := initState 90 (mails20.map (fun e => [e]))

/-- Syntactic criterion: every string this pattern accepts must consume
an '@' (codepoint 64).  True for a class that is exactly the '@'
literal, for a concatenation with such a part, and for an alternation
whose branches both have one. -/
def requiresAt : Pat → Bool
  | Pat.epsP => false
  | Pat.cls items => decide (items = [CItem.single 64])
  | Pat.seqP p q => requiresAt p || requiresAt q
  | Pat.altP p q => requiresAt p && requiresAt q
  | Pat.starP _ => false
  | Pat.optP _ => false

theorem pySplit_length_pos (sep : Char) (l : List Char) : 1 ≤ (pySplit sep l).length := by
  cases l with
  | nil => simp [pySplit]
  | cons c rest =>
    simp only [pySplit]
    rcases h : pySplit sep rest with _ | ⟨part, parts⟩
    · simp
    · dsimp only
      split <;> simp

/-- A character occurs in a list iff Python split on it produces at
least two parts (this is how `email.split('@')[1]` in the code detects,
and crashes on, an at-free string). -/
theorem pySplit_mem_iff (sep : Char) (l : List Char) : sep ∈ l ↔ 2 ≤ (pySplit sep l).length := by
  induction l with
  | nil => simp [pySplit]
  | cons c rest ih =>
    simp only [pySplit]
    rcases h : pySplit sep rest with _ | ⟨part, parts⟩
    · have hp := pySplit_length_pos sep rest
      rw [h] at hp
      simp at hp
    · dsimp only
      by_cases hc : c = sep
      · subst hc
        rw [if_pos rfl]
        simp only [List.length_cons]
        constructor
        · intro _; omega
        · intro _; exact List.mem_cons_self c rest
      · rw [if_neg hc]
        have hlen : (pySplit sep rest).length = parts.length + 1 := by rw [h]; rfl
        simp only [List.length_cons, List.mem_cons]
        constructor
        · rintro (h1 | h2)
          · exact absurd h1.symm hc
          · have h3 := ih.mp h2
            omega
        · intro hge
          exact Or.inr (ih.mpr (by omega))

theorem orElseO_eq_some {a : Option (List Char)} {b : Unit → Option (List Char)}
    {r : List Char} (h : orElseO a b = some r) : a = some r ∨ b () = some r := by
  cases a with
  | some x => exact Or.inl (by simpa [orElseO] using h)
  | none => exact Or.inr (by simpa [orElseO] using h)

/-- The matcher only ever hands its continuation a suffix of the input:
a successful overall result is the continuation's value at whatever the
pattern left unconsumed. -/
theorem matchC_suffix (ci : Bool) : ∀ (fuel : Nat) (pat : Pat) (s : List Char)
    (k : List Char → Option (List Char)) (r : List Char),
    matchC ci fuel pat s k = some r → ∃ s2, s2 <:+ s ∧ k s2 = some r := by
  intro fuel
  induction fuel with
  | zero => intro pat s k r h; simp [matchC] at h
  | succ fuel ih =>
    intro pat s k r h
    cases pat with
    | epsP => exact ⟨s, List.suffix_refl s, h⟩
    | cls items =>
      cases s with
      | nil => simp [matchC] at h
      | cons c rest =>
        simp only [matchC] at h
        by_cases hc : inCls ci items c
        · rw [if_pos hc] at h
          exact ⟨rest, List.suffix_cons c rest, h⟩
        · rw [if_neg hc] at h
          exact absurd h (by simp)
    | seqP p q =>
      simp only [matchC] at h
      obtain ⟨s2, hs2, h2⟩ := ih p s _ r h
      obtain ⟨s3, hs3, h3⟩ := ih q s2 k r h2
      exact ⟨s3, hs3.trans hs2, h3⟩
    | altP p q =>
      simp only [matchC] at h
      rcases orElseO_eq_some h with h1 | h1
      · exact ih p s k r h1
      · exact ih q s k r h1
    | optP p =>
      simp only [matchC] at h
      rcases orElseO_eq_some h with h1 | h1
      · exact ih p s k r h1
      · exact ⟨s, List.suffix_refl s, h1⟩
    | starP p =>
      simp only [matchC] at h
      rcases orElseO_eq_some h with h1 | h1
      · obtain ⟨s2, hs2, h2⟩ := ih p s _ r h1
        by_cases hl : s2.length < s.length
        · rw [if_pos hl] at h2
          obtain ⟨s3, hs3, h3⟩ := ih (Pat.starP p) s2 k r h2
          exact ⟨s3, hs3.trans hs2, h3⟩
        · rw [if_neg hl] at h2
          exact absurd h2 (by simp)
      · exact ⟨s, List.suffix_refl s, h1⟩

theorem inCls_at_single {ci : Bool} {c : Char}
    (h : inCls ci [CItem.single 64] c = true) : c = '@' := by
  have h64 : c.toNat = 64 := by
    simp only [inCls, List.any_cons, List.any_nil, inItem, Bool.or_false,
      Bool.or_eq_true, Bool.and_eq_true, decide_eq_true_eq] at h
    rcases h with h1 | ⟨_, h2⟩
    · exact h1
    · simp only [swapCaseNat] at h2
      split_ifs at h2 <;> omega
  have h2 := Char.ofNat_toNat c
  rw [h64] at h2
  exact h2.symm.trans rfl

/-- If every string the pattern accepts must consume an '@', then any
successful match attempt was on input containing '@'. -/
theorem matchC_at_mem (ci : Bool) : ∀ (fuel : Nat) (pat : Pat) (s : List Char)
    (k : List Char → Option (List Char)) (r : List Char),
    requiresAt pat = true → matchC ci fuel pat s k = some r → ('@') ∈ s := by
  intro fuel
  induction fuel with
  | zero => intro pat s k r _ h; simp [matchC] at h
  | succ fuel ih =>
    intro pat s k r hreq h
    cases pat with
    | epsP => simp [requiresAt] at hreq
    | starP p => simp [requiresAt] at hreq
    | optP p => simp [requiresAt] at hreq
    | cls items =>
      have hitems : items = [CItem.single 64] := by
        simpa [requiresAt] using hreq
      subst hitems
      cases s with
      | nil => simp [matchC] at h
      | cons c rest =>
        simp only [matchC] at h
        by_cases hc : inCls ci [CItem.single 64] c
        · rw [inCls_at_single hc]
          exact List.mem_cons_self _ _
        · rw [if_neg hc] at h
          exact absurd h (by simp)
    | seqP p q =>
      simp only [requiresAt, Bool.or_eq_true] at hreq
      simp only [matchC] at h
      rcases hreq with hp | hq
      · exact ih p s _ r hp h
      · obtain ⟨s2, hs2, h2⟩ := matchC_suffix ci fuel p s _ r h
        exact hs2.subset (ih q s2 k r hq h2)
    | altP p q =>
      simp only [requiresAt, Bool.and_eq_true] at hreq
      simp only [matchC] at h
      rcases orElseO_eq_some h with h1 | h1
      · exact ih p s k r hreq.1 h1
      · exact ih q s k r hreq.2 h1

theorem scanAll_eq_nil (ci : Bool) : ∀ (fuel : Nat) (s : List Char),
    ('@') ∉ s → scanAll ci fuel s = [] := by
  intro fuel
  induction fuel with
  | zero => intro s _; simp [scanAll]
  | succ fuel ih =>
    intro s hs
    cases s with
    | nil => simp [scanAll]
    | cons c rest =>
      cases hm : matchTail ci (c :: rest) with
      | some s2 =>
        exact absurd
          (matchC_at_mem ci _ emailPat (c :: rest) _ s2 (by decide) hm) hs
      | none =>
        simp only [scanAll, hm]
        exact ih rest (fun hmem => hs (List.mem_cons_of_mem c hmem))

/-- A text fragment without an '@' yields no candidate at all, with or
without re.IGNORECASE: the pattern must consume an '@'. -/
theorem findAll_eq_nil_of_no_at (ci : Bool) (text : String) (h : ('@') ∉ text.data) :
    findAll ci text = [] :=
  scanAll_eq_nil ci (text.data.length + 1) text.data h

theorem foldl_fseStep_filter (th : ℚ) (email : String) :
    ∀ (l : List String) (b : String × ℚ),
    l.foldl (fseStep th email) b = (l.filter (fun e => e != email)).foldl (fseStep th email) b := by
  intro l
  induction l with
  | nil => intro b; rfl
  | cons x rest ih =>
    intro b
    by_cases hx : x = email
    · have hstep : fseStep th email b x = b := by
        simp [fseStep, hx]
      have hfil : (x != email) = false := by simp [hx]
      rw [List.foldl_cons, hstep, List.filter_cons, hfil]
      simp only [Bool.false_eq_true, if_false]
      exact ih b
    · have hfil : (x != email) = true := by simpa using hx
      rw [List.foldl_cons, List.filter_cons, hfil]
      simp only [if_pos]
      rw [List.foldl_cons]
      exact ih (fseStep th email b x)

/-- find_similar_email is the left fold of its loop body over the pool:
all_emails in order, then current_batch in order, with the members equal
to the candidate skipped. -/
theorem find_eq_pool_fold (th : ℚ) (hist batch : List String) (email : String) :
    find_similar_email th hist batch email =
      (similarity_pool hist batch email).foldl (fseStep th email) ("", 0) := by
  rw [find_similar_email, similarity_pool, List.filter_append, List.foldl_append,
    ← foldl_fseStep_filter, ← foldl_fseStep_filter]

theorem foldl_fseStep_snd_mono (th : ℚ) (email : String) :
    ∀ (l : List String) (b : String × ℚ), b.2 ≤ (l.foldl (fseStep th email) b).2 := by
  intro l
  induction l with
  | nil => intro b; exact le_refl _
  | cons x rest ih =>
    intro b
    rw [List.foldl_cons]
    refine le_trans ?_ (ih (fseStep th email b x))
    simp only [fseStep]
    split
    · split
      · rename_i hcond
        exact le_of_lt hcond.1
      · exact le_refl _
    · exact le_refl _

theorem foldl_fseStep_ge (th : ℚ) (email : String) :
    ∀ (l : List String) (b : String × ℚ) (e : String),
    e ∈ l → e ≠ email → th ≤ calculate_similarity email e →
    th ≤ (l.foldl (fseStep th email) b).2 := by
  intro l
  induction l with
  | nil => intro b e he; simp at he
  | cons x rest ih =>
    intro b e he hne hth
    rw [List.foldl_cons]
    rcases List.mem_cons.mp he with h1 | h2
    · subst h1
      refine le_trans ?_ (foldl_fseStep_snd_mono th email rest (fseStep th email b e))
      simp only [fseStep, if_pos hne]
      split
      · exact hth
      · rename_i hcond
        rw [not_and_or] at hcond
        rcases hcond with hlt | hge
        · exact le_trans hth (le_of_not_lt hlt)
        · exact absurd (ge_iff_le.mpr hth) hge
    · exact ih (fseStep th email b x) e h2 hne hth

theorem foldl_fseStep_id (th : ℚ) (email : String) :
    ∀ (l : List String) (b : String × ℚ),
    (∀ e ∈ l, ¬ th ≤ calculate_similarity email e) → l.foldl (fseStep th email) b = b := by
  intro l
  induction l with
  | nil => intro b _; rfl
  | cons x rest ih =>
    intro b hall
    have hstep : fseStep th email b x = b := by
      simp only [fseStep]
      split
      · split
        · rename_i hcond
          exact absurd (ge_iff_le.mpr hcond.2) (hall x (List.mem_cons_self x rest))
        · rfl
      · rfl
    rw [List.foldl_cons, hstep]
    exact ih b (fun y hy => hall y (List.mem_cons_of_mem x hy))

theorem foldl_fseStep_lt (th : ℚ) (email : String) (S : ℚ) :
    ∀ (l : List String) (b : String × ℚ),
    (∀ e ∈ l, calculate_similarity email e < S) → b.2 < S →
    (l.foldl (fseStep th email) b).2 < S := by
  intro l
  induction l with
  | nil => intro b _ hb; exact hb
  | cons x rest ih =>
    intro b hall hb
    rw [List.foldl_cons]
    refine ih (fseStep th email b x) (fun y hy => hall y (List.mem_cons_of_mem x hy)) ?_
    simp only [fseStep]
    split
    · split
      · exact hall x (List.mem_cons_self x rest)
      · exact hb
    · exact hb

theorem foldl_fseStep_frozen (th : ℚ) (email : String) :
    ∀ (l : List String) (b : String × ℚ),
    (∀ e ∈ l, calculate_similarity email e ≤ b.2) → l.foldl (fseStep th email) b = b := by
  intro l
  induction l with
  | nil => intro b _; rfl
  | cons x rest ih =>
    intro b hall
    have hstep : fseStep th email b x = b := by
      simp only [fseStep]
      split
      · split
        · rename_i hcond
          exact absurd hcond.1 (not_lt.mpr (hall x (List.mem_cons_self x rest)))
        · rfl
      · rfl
    rw [List.foldl_cons, hstep]
    exact ih b (fun y hy => hall y (List.mem_cons_of_mem x hy))

theorem foldl_fseStep_cases (th : ℚ) (email : String) :
    ∀ (l : List String) (b : String × ℚ),
    l.foldl (fseStep th email) b = b ∨
      ∃ e ∈ l, l.foldl (fseStep th email) b = (e, calculate_similarity email e) ∧
        th ≤ calculate_similarity email e ∧ e ≠ email := by
  intro l
  induction l with
  | nil => intro b; exact Or.inl rfl
  | cons x rest ih =>
    intro b
    have hstep : fseStep th email b x = b ∨
        (fseStep th email b x = (x, calculate_similarity email x) ∧
          th ≤ calculate_similarity email x ∧ x ≠ email) := by
      simp only [fseStep]
      split
      · split
        · rename_i hne hcond
          exact Or.inr ⟨rfl, ge_iff_le.mp hcond.2, hne⟩
        · exact Or.inl rfl
      · exact Or.inl rfl
    rcases ih (fseStep th email b x) with hrec | ⟨e, hmem, heq, hth, hne⟩
    · rcases hstep with h1 | ⟨h1, h2, h3⟩
      · exact Or.inl (by rw [List.foldl_cons, hrec, h1])
      · exact Or.inr ⟨x, List.mem_cons_self x rest,
          by rw [List.foldl_cons, hrec, h1], h2, h3⟩
    · exact Or.inr ⟨e, List.mem_cons_of_mem x hmem,
        by rw [List.foldl_cons]; exact heq, hth, hne⟩

theorem exIsOk_eq_ok {x : Except (RunError × ParserState) ParserState}
    (h : exIsOk x = true) : x = Except.ok (exState x) := by
  cases x with
  | ok st => rfl
  | error err => simp [exIsOk] at h

theorem processBatchEmail_ok {env : Env} {src : String} {st st2 : ParserState}
    {email : String} (h : processBatchEmail env src st email = Except.ok st2) :
    st2.excluded_emails = st.excluded_emails ∧ st2.current_batch = st.current_batch ∧
    st2.all_emails = st.all_emails ++
      (if pyLower email ∈ st.excluded_emails then [] else [email]) := by
  by_cases hexc : pyLower email ∈ st.excluded_emails
  · rw [processBatchEmail, if_pos hexc] at h
    cases h
    simp [hexc]
  · rw [processBatchEmail, if_neg hexc] at h
    rw [if_neg hexc]
    cases hcalc : calculate_malformation_probability env.suffixOf email with
    | none => rw [hcalc] at h; cases h
    | some prob =>
      rw [hcalc] at h
      cases h
      simp

theorem batchLoop_all_emails {env : Env} {src : String} :
    ∀ (l : List String) (st st2 : ParserState),
    batchLoop env src st l = Except.ok st2 →
    st2.all_emails = st.all_emails ++
        l.filter (fun e => !(decide (pyLower e ∈ st.excluded_emails))) ∧
      st2.excluded_emails = st.excluded_emails ∧
      st2.current_batch = st.current_batch := by
  intro l
  induction l with
  | nil =>
    intro st st2 h
    cases h
    simp
  | cons x rest ih =>
    intro st st2 h
    rw [batchLoop] at h
    cases hx : processBatchEmail env src st x with
    | error err => rw [hx] at h; cases h
    | ok st1 =>
      rw [hx] at h
      obtain ⟨hex1, hcb1, hall1⟩ := processBatchEmail_ok hx
      obtain ⟨hall2, hex2, hcb2⟩ := ih st1 st2 h
      refine ⟨?_, hex2.trans hex1, hcb2.trans hcb1⟩
      rw [hall2, hall1, hex1, List.filter_cons]
      by_cases hexc : pyLower x ∈ st.excluded_emails
      · simp [hexc]
      · simp [hexc]

/-- On a successful flush, all_emails is extended by exactly the
non-excluded batch members, in batch order, after the previous history. -/
theorem process_batch_all_emails {env : Env} {src : String} {st st2 : ParserState}
    (h : process_batch env src st = Except.ok st2) :
    st2.all_emails = st.all_emails ++
      st.current_batch.filter (fun e => !(decide (pyLower e ∈ st.excluded_emails))) := by
  rw [process_batch] at h
  by_cases hb : st.current_batch = []
  · rw [if_pos hb] at h
    cases h
    rw [hb]
    simp
  · rw [if_neg hb] at h
    by_cases hsink : env.sinkFails st.flushes
    · rw [if_pos hsink] at h; cases h
    · rw [if_neg hsink] at h
      cases hloop : batchLoop env src { st with flushes := st.flushes + 1 }
          { st with flushes := st.flushes + 1 }.current_batch with
      | error err => rw [hloop] at h; cases h
      | ok st1 =>
        rw [hloop] at h
        cases h
        obtain ⟨hall, _, _⟩ := batchLoop_all_emails _ _ _ hloop
        simpa using hall

/-
  Claim theorems.
-/

set_option maxRecDepth 4096

/-- Claim C3, counterexample: the end-to-end run on an input containing
the excluded address spam@bad.tld exactly once writes zero report rows
but increments the processed count by 2, not by 1 — the candidate is
counted once when found (line 197) and once more when skipped at flush
time (line 88), because the exclusion check happens only in
process_batch. -/
theorem C3_counterexample : c3_result.output = [] ∧ c3_result.processed_count = 2 ∧
    c3_result.processed_count ≠ 1 := by decide

/-- Claim C3, amended: for the input containing exactly one occurrence of
the excluded address, a full run writes zero report rows for it and
increments the processed count by exactly 2 (once at discovery, once at
the flush-time skip). -/
theorem C3_run : c3_result.output = [] ∧ c3_result.processed_count = 2 := by decide

/-- Claim C2, counterexample: in the same end-to-end run, the case-folded
excluded candidate IS added to UniqueEmailSet — parse_csv_file inserts
into unique_emails (line 199) before any exclusion check, which only
happens at flush time. -/
theorem C2_counterexample : pyLower ("spam@bad.tld") ∈ c3_result.unique_emails := by decide

/-- Claim C4 (code bug): the claim — and the spec — say matching is
case-insensitive, and the identical HTML-side pattern (line 20) is
compiled with re.IGNORECASE, but the CSV-side pattern of
EmailParser.__init__ (line 59) is compiled without it, so neither
`A@Example.com` nor `a@example.COM` is recognized as a candidate in CSV
parsing at all, while the HTML-side pattern recognizes both. -/
theorem C4_code_eval :
    findAll false ("A@Example.com") = [] ∧
    findAll false ("a@example.COM") = [] ∧
    findAll true ("A@Example.com") = ["A@Example.com"] ∧
    findAll true ("a@example.COM") = ["a@example.COM"] := by decide

/-- Claim C8, counterexample: on an HTML-derived fragment containing the
same address twice, the grammar (findall) does yield it twice, but
EmailHTMLParser collects matches into a Python set (line 19), so the
duplicate is suppressed in the matching layer — before the collector —
contradicting "duplicate suppression happens only in the collector". -/
theorem C8_counterexample :
    (findAll true ("a@b.co a@b.co")).length = 2 ∧
    (handle_data_emails [] ("a@b.co a@b.co")).length = 1 := by decide

theorem malformation_raw_bounds (suffixOf : String → String) (email : String) :
    0 ≤ malformation_raw suffixOf email ∧ malformation_raw suffixOf email ≤ 7/10 := by
  simp only [malformation_raw]
  split_ifs <;> norm_num

unseal Rat.add Rat.mul Rat.inv Rat.sub in
/-- Claim C1, counterexample: the grammar-accepted candidate c1_addr has
no recognizable TLD, five domain labels, a 66-character local part and
consecutive special characters, yet its malformation score is exactly
0.7 — not 1.0 as the claim states: the four firing penalties sum to
0.4+0.1+0.1+0.1 = 0.7, below the cap. -/
theorem C1_counterexample :
    findAll false c1_addr = [c1_addr] ∧
    calculate_malformation_probability suffix_model c1_addr = some (7/10) ∧
    (7/10 : ℚ) ≠ 1 := by decide

/-- Claim C1, amended: every returned malformation score lies in [0, 1];
and an address with no recognizable TLD, more than 4 dot-separated
domain labels, a local part longer than 64 characters and two or more
consecutive special characters in the local part scores exactly 0.7
(the additive penalties 0.4+0.1+0.1+0.1, which the min(., 1.0) cap
leaves unchanged; the TLD-length penalty cannot also fire). -/
theorem C1_score :
    (∀ (suffixOf : String → String) (email : String) (q : ℚ),
      calculate_malformation_probability suffixOf email = some q → 0 ≤ q ∧ q ≤ 1) ∧
    (∀ (suffixOf : String → String) (email : String),
      suffixOf email = "" →
      4 < (pySplit ('.') ((pySplit ('@') email.data).getD 1 [])).length →
      64 < ((pySplit ('@') email.data).headD []).length →
      has_consecutive_special ((pySplit ('@') email.data).headD []) = true →
      calculate_malformation_probability suffixOf email = some (7/10)) := by
  constructor
  · intro suffixOf email q h
    rcases hsp : pySplit ('@') email.data with _ | ⟨lp, _ | ⟨dom, rest⟩⟩
    · rw [calculate_malformation_probability, hsp] at h; cases h
    · rw [calculate_malformation_probability, hsp] at h; cases h
    · rw [calculate_malformation_probability, hsp] at h
      have hq := Option.some.inj h
      obtain ⟨hge, hle⟩ := malformation_raw_bounds suffixOf email
      constructor
      · rw [← hq, pyMin]
        split
        · exact hge
        · norm_num
      · rw [← hq, pyMin]
        split
        · rename_i hle
          exact hle
        · exact le_refl _
  · intro suffixOf email h1 h2 h3 h4
    rcases hsp : pySplit ('@') email.data with _ | ⟨lp, _ | ⟨dom, rest⟩⟩
    · rw [hsp] at h2
      simp [pySplit] at h2
    · rw [hsp] at h2
      simp [pySplit] at h2
    · have hdom : (pySplit ('@') email.data).getD 1 [] = dom := by rw [hsp]; rfl
      have hlp : (pySplit ('@') email.data).headD [] = lp := by rw [hsp]; rfl
      rw [hdom] at h2
      rw [hlp] at h3 h4
      have hraw : malformation_raw suffixOf email = 7/10 := by
        simp only [malformation_raw, hdom, hlp, h1, h4]
        rw [if_pos h2, if_pos h3]
        norm_num
      rw [calculate_malformation_probability, hsp, hraw]
      norm_num [pyMin]

/-- Claim C1, witness: the amended statement instantiated at the
concrete candidate. -/
theorem C1_witness :
    calculate_malformation_probability suffix_model c1_addr = some (7/10) ∧
    0 ≤ (7/10 : ℚ) ∧ (7/10 : ℚ) ≤ 1 := by
  have h := C1_score.2 suffix_model c1_addr (by decide) (by decide) (by decide) (by decide)
  have hb := C1_score.1 suffix_model c1_addr (7/10) h
  exact ⟨h, hb.1, hb.2⟩

/-- Claim C10: for every input containing at least one '@', the scorer
is total, returns the uncapped penalty sum, and that sum is in
[0, 0.7], so min(., 1.0) never changes the result; on a string with no
'@', `email.split('@')[1]` indexes past the end of the split and the
function raises (modelled: returns none) instead of returning. -/
theorem C10_total : ∀ (suffixOf : String → String) (email : String),
    (('@') ∈ email.data →
      calculate_malformation_probability suffixOf email =
        some (malformation_raw suffixOf email) ∧
      0 ≤ malformation_raw suffixOf email ∧
      malformation_raw suffixOf email ≤ 7/10 ∧
      pyMin (malformation_raw suffixOf email) 1 = malformation_raw suffixOf email) ∧
    (('@') ∉ email.data → calculate_malformation_probability suffixOf email = none) := by
  intro suffixOf email
  constructor
  · intro hat
    have h2 := (pySplit_mem_iff ('@') email.data).mp hat
    obtain ⟨hge, hle⟩ := malformation_raw_bounds suffixOf email
    have hmin : pyMin (malformation_raw suffixOf email) 1 = malformation_raw suffixOf email := by
      rw [pyMin, if_pos (le_trans hle (by norm_num))]
    rcases hsp : pySplit ('@') email.data with _ | ⟨lp, _ | ⟨dom, rest⟩⟩
    · rw [hsp] at h2; simp at h2
    · rw [hsp] at h2; simp at h2
    · refine ⟨?_, hge, hle, hmin⟩
      rw [calculate_malformation_probability, hsp, hmin]
  · intro hat
    have h2 : ¬ 2 ≤ (pySplit ('@') email.data).length :=
      fun hc => hat ((pySplit_mem_iff _ _).mpr hc)
    have h1 := pySplit_length_pos ('@') email.data
    rcases hsp : pySplit ('@') email.data with _ | ⟨lp, _ | ⟨dom, rest⟩⟩
    · rw [hsp] at h1; simp at h1
    · rw [calculate_malformation_probability, hsp]
    · rw [hsp] at h2
      simp only [List.length_cons] at h2
      omega

/-- Claim C10, witness: the theorem instantiated at a concrete address
with an '@' (total, uncapped) and one without (raises). -/
theorem C10_witness :
    calculate_malformation_probability suffix_model ("ab@cd.com") =
      some (malformation_raw suffix_model ("ab@cd.com")) ∧
    calculate_malformation_probability suffix_model ("nodomain") = none :=
  ⟨((C10_total suffix_model ("ab@cd.com")).1 (by decide)).1,
   (C10_total suffix_model ("nodomain")).2 (by decide)⟩

/-- Claim C2, amended: processing a candidate whose case-folded form is
in ExcludeSet (from an empty batch through discovery and the following
flush) never writes a report row, never appends it to HistoryLog, and
counts it toward the processed count twice — once at discovery and once
at the flush-time skip; however, its case-folded form IS added to
UniqueEmailSet at discovery, because the exclusion check only happens in
process_batch. -/
theorem C2_excluded_processing :
    ∀ (env : Env) (fname : String) (st : ParserState) (email : String),
    pyLower email ∈ st.excluded_emails →
    pyLower email ∉ st.unique_emails →
    st.current_batch = [] →
    2 ≤ st.batch_size →
    env.sinkFails st.flushes = false →
    ∃ st2 st3,
      handle_candidate env fname st email = Except.ok st2 ∧
      process_batch env fname st2 = Except.ok st3 ∧
      st3.output = st.output ∧
      st3.all_emails = st.all_emails ∧
      st3.processed_count = st.processed_count + 2 ∧
      pyLower email ∈ st3.unique_emails ∧
      st3.current_batch = [] := by
  intro env fname st email hexc huniq hbatch hbs hsink
  have hb1 : ¬ st.batch_size ≤ 1 := by omega
  have h1 : handle_candidate env fname st email = Except.ok
      { st with
        processed_count := st.processed_count + 1
        unique_emails := st.unique_emails ++ [pyLower email]
        current_batch := [email] } := by
    simp [handle_candidate, huniq, hbatch, hb1]
  have h2 : process_batch env fname
      ({ st with
        processed_count := st.processed_count + 1
        unique_emails := st.unique_emails ++ [pyLower email]
        current_batch := [email] } : ParserState) = Except.ok
      { st with
        processed_count := st.processed_count + 1 + 1
        unique_emails := st.unique_emails ++ [pyLower email]
        current_batch := []
        flushes := st.flushes + 1 } := by
    simp [process_batch, batchLoop, processBatchEmail, hsink, hexc]
  refine ⟨_, _, h1, h2, rfl, rfl, by dsimp only, ?_, rfl⟩
  exact List.mem_append_right _ (List.mem_singleton.mpr rfl)

/-- Claim C2, witness: the amended statement instantiated at the
end-to-end configuration of the spec's exclusion scenario. -/
theorem C2_witness :
    ∃ st2 st3,
      handle_candidate env0 ("x.csv") (initState 90 [["spam@bad.tld"]]) ("spam@bad.tld") =
        Except.ok st2 ∧
      process_batch env0 ("x.csv") st2 = Except.ok st3 ∧
      st3.output = (initState 90 [["spam@bad.tld"]]).output ∧
      st3.all_emails = (initState 90 [["spam@bad.tld"]]).all_emails ∧
      st3.processed_count = (initState 90 [["spam@bad.tld"]]).processed_count + 2 ∧
      pyLower ("spam@bad.tld") ∈ st3.unique_emails ∧
      st3.current_batch = [] :=
  C2_excluded_processing env0 ("x.csv") (initState 90 [["spam@bad.tld"]]) ("spam@bad.tld")
    (by decide) (by decide) (by decide) (by decide) (by decide)

set_option maxHeartbeats 1000000 in
unseal Rat.add Rat.mul Rat.inv Rat.sub in
/-- Claim C5, counterexample: flushing the batch
[john@example.com, jon@example.com] with empty HistoryLog reports
jon@example.com — a member queued AFTER it in the same batch — as the
similar email of the first flushed row, because find_similar_email scans
the entire current_batch, not only the members flushed earlier. -/
theorem C5_counterexample :
    c5_st2.output.map (fun r => r.similar) = ["jon@example.com", "john@example.com"] := by
  decide

/-- Claim C5, amended: the similarity pool for a queued address is
HistoryLog (all_emails, which during a flush already holds the
earlier-flushed batch members) plus the ENTIRE current batch — including
members queued after the address — minus any member string-equal to the
address; a reported match always comes from that pool with its exact
similarity, at or above the threshold; and a successful flush appends
exactly the non-excluded batch members to HistoryLog, after they are
scored and written. -/
theorem C5_pool :
    (∀ (th : ℚ) (hist batch : List String) (email : String),
      find_similar_email th hist batch email = ("", 0) ∨
      ((find_similar_email th hist batch email).1 ∈ hist ++ batch ∧
        (find_similar_email th hist batch email).1 ≠ email ∧
        (find_similar_email th hist batch email).2 =
          calculate_similarity email (find_similar_email th hist batch email).1 ∧
        th ≤ (find_similar_email th hist batch email).2)) ∧
    (∀ (env : Env) (src : String) (st st2 : ParserState),
      process_batch env src st = Except.ok st2 →
      st2.all_emails = st.all_emails ++
        st.current_batch.filter (fun e => !(decide (pyLower e ∈ st.excluded_emails)))) := by
  constructor
  · intro th hist batch email
    rw [find_eq_pool_fold]
    rcases foldl_fseStep_cases th email (similarity_pool hist batch email) ("", 0) with
      h | ⟨e, hmem, heq, hth, hne⟩
    · exact Or.inl h
    · right
      rw [heq]
      rw [similarity_pool] at hmem
      exact ⟨(List.mem_filter.mp hmem).1, hne, rfl, hth⟩
  · intro env src st st2 h
    exact process_batch_all_emails h

set_option maxHeartbeats 1000000 in
unseal Rat.add Rat.mul Rat.inv Rat.sub in
/-- Claim C5, witness: the pool and append facts instantiated on the
concrete two-member flush. -/
theorem C5_witness :
    c5_st2.all_emails = c5_state.all_emails ++
      c5_state.current_batch.filter
        (fun e => !(decide (pyLower e ∈ c5_state.excluded_emails))) := by
  have hok : exIsOk (process_batch env0 ("batch.csv") c5_state) = true := by decide
  exact C5_pool.2 env0 ("batch.csv") c5_state c5_st2 (exIsOk_eq_ok hok)

/-- Claim C6: with a positive threshold, a near-duplicate is reported iff
some pool member's similarity meets or exceeds the threshold (so a
member exactly at the threshold is reported, one below it is not, and a
lower-scoring match never fills the fields); and the row written for a
non-excluded email has its similar-email and similarity-percentage
fields filled exactly when the found similarity meets the threshold,
empty otherwise. -/
theorem C6_threshold :
    (∀ (th : ℚ) (hist batch : List String) (email : String), 0 < th →
      (th ≤ (find_similar_email th hist batch email).2 ↔
        ∃ e, e ∈ hist ++ batch ∧ e ≠ email ∧ th ≤ calculate_similarity email e)) ∧
    (∀ (env : Env) (src : String) (st st2 : ParserState) (email : String),
      pyLower email ∉ st.excluded_emails →
      processBatchEmail env src st email = Except.ok st2 →
      ∃ row, st2.output = st.output ++ [row] ∧
        row.similar =
          (if (find_similar_email st.similarity_threshold st.all_emails
              st.current_batch email).2 ≥ st.similarity_threshold
            then (find_similar_email st.similarity_threshold st.all_emails
              st.current_batch email).1 else ("")) ∧
        row.percentage =
          (if (find_similar_email st.similarity_threshold st.all_emails
              st.current_batch email).2 ≥ st.similarity_threshold
            then some ((find_similar_email st.similarity_threshold st.all_emails
              st.current_batch email).2) else none)) := by
  constructor
  · intro th hist batch email hth
    rw [find_eq_pool_fold]
    constructor
    · intro hge
      by_contra hno
      push_neg at hno
      have hid := foldl_fseStep_id th email (similarity_pool hist batch email) ("", 0) ?_
      · rw [hid] at hge
        exact absurd (hth.trans_le hge) (lt_irrefl 0)
      · intro e hmem
        rw [similarity_pool] at hmem
        have h1 := List.mem_filter.mp hmem
        exact not_le.mpr (hno e h1.1 (by simpa using h1.2))
    · rintro ⟨e, hmem, hne, hth2⟩
      refine foldl_fseStep_ge th email _ _ e ?_ hne hth2
      rw [similarity_pool]
      exact List.mem_filter.mpr ⟨hmem, by simpa using hne⟩
  · intro env src st st2 email hexc h
    cases hcalc : calculate_malformation_probability env.suffixOf email with
    | none =>
      simp only [processBatchEmail, if_neg hexc, hcalc] at h
      exact absurd h (by simp)
    | some prob =>
      simp only [processBatchEmail, if_neg hexc, hcalc] at h
      have hst := Except.ok.inj h
      refine ⟨{ email := email
                malformation := prob
                similar :=
                  if (find_similar_email st.similarity_threshold st.all_emails
                      st.current_batch email).2 ≥ st.similarity_threshold
                  then (find_similar_email st.similarity_threshold st.all_emails
                      st.current_batch email).1 else ("")
                percentage :=
                  if (find_similar_email st.similarity_threshold st.all_emails
                      st.current_batch email).2 ≥ st.similarity_threshold
                  then some ((find_similar_email st.similarity_threshold st.all_emails
                      st.current_batch email).2) else none
                source := src }, ?_, rfl, rfl⟩
      rw [← hst]

set_option maxHeartbeats 1000000 in
unseal Rat.add Rat.mul Rat.inv Rat.sub in
/-- Claim C6, witness: jon@example.com scores exactly 3000/31 (≈ 96.77)
against the history member john@example.com.  With the threshold set
exactly there the match is reported; with the threshold a hundredth of
a percent higher it is not; and the concrete written row has both
similar-email fields populated per the threshold test. -/
theorem C6_witness :
    ((3000/31 : ℚ) ≤
      (find_similar_email (3000/31) (["john@example.com"]) [] ("jon@example.com")).2) ∧
    (¬ ((3000/31 + 1/100 : ℚ) ≤
      (find_similar_email (3000/31 + 1/100) (["john@example.com"]) []
        ("jon@example.com")).2)) ∧
    (∃ row, c6_st2.output = c6_state.output ++ [row] ∧
      row.similar =
        (if (find_similar_email c6_state.similarity_threshold c6_state.all_emails
            c6_state.current_batch ("jon@example.com")).2 ≥ c6_state.similarity_threshold
          then (find_similar_email c6_state.similarity_threshold c6_state.all_emails
            c6_state.current_batch ("jon@example.com")).1 else ("")) ∧
      row.percentage =
        (if (find_similar_email c6_state.similarity_threshold c6_state.all_emails
            c6_state.current_batch ("jon@example.com")).2 ≥ c6_state.similarity_threshold
          then some ((find_similar_email c6_state.similarity_threshold c6_state.all_emails
            c6_state.current_batch ("jon@example.com")).2) else none)) := by
  refine ⟨?_, ?_, ?_⟩
  · exact (C6_threshold.1 (3000/31) (["john@example.com"]) [] ("jon@example.com")
      (by decide)).mpr ⟨"john@example.com", by decide, by decide, by decide⟩
  · intro hc
    obtain ⟨e, hmem, hne, hth⟩ := (C6_threshold.1 (3000/31 + 1/100) (["john@example.com"]) []
      ("jon@example.com") (by decide)).mp hc
    have he : e = "john@example.com" := by simpa using hmem
    rw [he] at hth
    exact absurd hth (by decide)
  · exact C6_threshold.2 env0 ("f.csv") c6_state c6_st2 ("jon@example.com")
      (by decide) (exIsOk_eq_ok (by decide))

/-- Claim C7: when pool members tie for the highest similarity at or
above the threshold, find_similar_email returns the first member — in
HistoryLog-then-current-batch scan order — that attains the maximum,
with its similarity: the fold only replaces the best on a strictly
greater score, so no later tie displaces it. -/
theorem C7_tiebreak :
    ∀ (th : ℚ) (hist batch : List String) (email m : String) (pre post : List String),
    similarity_pool hist batch email = pre ++ m :: post →
    0 < calculate_similarity email m →
    th ≤ calculate_similarity email m →
    (∀ e ∈ pre, calculate_similarity email e < calculate_similarity email m) →
    (∀ e ∈ post, calculate_similarity email e ≤ calculate_similarity email m) →
    find_similar_email th hist batch email = (m, calculate_similarity email m) := by
  intro th hist batch email m pre post hsplit hpos hth hpre hpost
  have hm_ne : m ≠ email := by
    have hmem : m ∈ similarity_pool hist batch email := by
      rw [hsplit]
      exact List.mem_append_right _ (List.mem_cons_self m post)
    rw [similarity_pool] at hmem
    simpa using (List.mem_filter.mp hmem).2
  rw [find_eq_pool_fold, hsplit, List.foldl_append, List.foldl_cons]
  have h1 : (pre.foldl (fseStep th email) ("", 0)).2 < calculate_similarity email m :=
    foldl_fseStep_lt th email (calculate_similarity email m) pre ("", 0) hpre
      (by simpa using hpos)
  have hstep : fseStep th email (pre.foldl (fseStep th email) ("", 0)) m =
      (m, calculate_similarity email m) := by
    rw [fseStep, if_pos hm_ne, if_pos ⟨h1, hth⟩]
  rw [hstep]
  exact foldl_fseStep_frozen th email post (m, calculate_similarity email m) hpost

set_option maxHeartbeats 1000000 in
unseal Rat.add Rat.mul Rat.inv Rat.sub in
/-- Claim C7, witness: ab@cd.ex (in HistoryLog) and ab@cd.ey (queued in
the batch) both score 175/2 = 87.5 against ab@cd.ef; with threshold 80
the reported similar email is ab@cd.ex, the first in
HistoryLog-then-batch scan order. -/
theorem C7_witness :
    find_similar_email 80 (["ab@cd.ex"]) (["ab@cd.ey"]) ("ab@cd.ef") =
      ("ab@cd.ex", 175/2) := by
  have h := C7_tiebreak 80 (["ab@cd.ex"]) (["ab@cd.ey"]) ("ab@cd.ef") ("ab@cd.ex")
    [] (["ab@cd.ey"]) (by decide) (by decide) (by decide)
    (by intro e he; simp at he)
    (by intro e he; rw [List.mem_singleton.mp he]; decide)
  rw [h]
  decide

/-- Claim C8, amended: findall itself is pure, yields candidates in
left-to-right scan order and preserves duplicates (as in the concrete
two-occurrence fragment), and any fragment without an '@' — hence with
no valid address substring — yields the empty sequence under both
compilations of the pattern; but for HTML-derived fragments
EmailHTMLParser accumulates the matches into a Python set, so duplicate
suppression already happens in the matching layer, before the
collector. -/
theorem C8_grammar :
    (∀ s : String, ('@') ∉ s.data → findAll true s = [] ∧ findAll false s = []) ∧
    findAll false ("a@b.co a@b.co") = ["a@b.co", "a@b.co"] ∧
    handle_data_emails [] ("a@b.co a@b.co") = ["a@b.co"] := by
  refine ⟨?_, by decide, by decide⟩
  intro s h
  exact ⟨findAll_eq_nil_of_no_at true s h, findAll_eq_nil_of_no_at false s h⟩

/-- Claim C8, witness: the empty-sequence guarantee instantiated on a
concrete at-free fragment. -/
theorem C8_witness : findAll true ("no address in this fragment") = [] :=
  (C8_grammar.1 ("no address in this fragment") (by decide)).1

/-- Claim C9, counterexample: with a transient sink failure on the first
open attempt, the mid-file batch-size-triggered flush of a 20-candidate
CSV file raises inside parse_csv_file, the blanket per-file
`except Exception` (line 204) swallows it, and the run then completes
normally — the write failure was downgraded to logged-and-skipped
rather than aborting the run. -/
theorem C9_counterexample :
    exIsOk (parse_csv_inner envT ("big.csv") init20 file20) = false ∧
    exIsOk (process_file_unit envT ("big.csv") file20 init20) = true ∧
    (exState (process_file_unit envT ("big.csv") file20 init20)).processed_count = 40 := by
  decide

/-- Claim C9, amended: a write failure at the END-OF-UNIT flush
propagates out of process_path and aborts the run, but a failure at a
MID-FILE batch-size-triggered flush is caught by the per-file exception
handler of parse_csv_file, which resumes from the state at the point of
failure and lets the run continue. -/
theorem C9_flush_errors :
    (∀ (env : Env) (fname : String) (file : List (List String)) (st : ParserState)
      (err : RunError × ParserState),
      parse_csv_inner env fname st file = Except.error err →
      parse_csv_file env fname file st = err.2) ∧
    (∀ (env : Env) (fname : String) (file : List (List String)) (st : ParserState),
      (parse_csv_file env fname file st).current_batch ≠ [] →
      env.sinkFails (parse_csv_file env fname file st).flushes = true →
      ∃ st2, process_file_unit env fname file st = Except.error (RunError.ioError, st2)) := by
  constructor
  · intro env fname file st err h
    rw [parse_csv_file, h]
  · intro env fname file st hb hsink
    simp only [process_file_unit, if_neg hb]
    simp only [process_batch, if_neg hb, hsink]
    exact ⟨_, rfl⟩

/-- Claim C9, witness: with a permanently failing sink and one candidate
queued, the end-of-unit flush aborts the run. -/
theorem C9_witness :
    ∃ st2, process_file_unit envF ("w.csv") [["a@b.cd"]] (initState 90 []) =
      Except.error (RunError.ioError, st2) :=
  C9_flush_errors.2 envF ("w.csv") [["a@b.cd"]] (initState 90 []) (by decide) (by decide)
